import Mathlib

/-!
Verification of the mapchete NumPy tile-store driver
(`mapchete_numpy/__init__.py`) against its natural-language specification.

The embedding is a shallow one: n-dimensional NumPy arrays are flattened to
`List Int` per slice, a stack (leading "layer" axis) is a `List (List Int)`,
and a masked array carries its values together with a NumPy-style mask that
is either a scalar `np.bool_` (the compact `nomask` / all-masked
representation) or a full per-element boolean list.  Fallible Python code is
modelled with `Except`; the filesystem is an association list from paths to
stored stacks.  All definitions below are translated from the Python source;
the one exception, marked in its doc comment, follows the specification's
words so that the code's behaviour can be compared against it.
-/

namespace MapcheteNumpy

/-- Output configuration (`OutputData.__init__` / §3 of the spec): band
count, storage path, element dtype, dimensionality `ndim`, nodata value
(default 0, from the `try/except KeyError` in `__init__`) and
single-file-vs-directory mode (default single file). -/
structure Config where
  bands : Nat
  path : String
  dtype : String
  ndim : Nat
  nodata : Int
  single_file : Bool
deriving DecidableEq, Repr

/-- The mask of a NumPy masked array: either the scalar `np.bool_`
(`nomask` when `false`, the compact all-masked form when `true`) or a full
per-element boolean array.  The source explicitly branches on
`isinstance(mask, np.bool_)`, so the distinction is part of the model. -/
inductive NpMask where
  | scalar (b : Bool)
  | arr (m : List Bool)
deriving DecidableEq, Repr

/-- A (possibly masked) slice handed to `add_to_stack`: the raw element
values (NumPy keeps the underlying data even below masked cells) and the
mask exposed by the `.mask` attribute. -/
structure MaskedSlice where
  data : List Int
  mask : NpMask
deriving DecidableEq, Repr

/-- Result of `add_to_stack`: either a plain ndarray stack (also standing
for a masked array whose mask shrank to `nomask`), or a masked stack whose
per-layer, per-element mask was derived by `ma.masked_where`. -/
inductive StackResult where
  | plain (layers : List (List Int))
  | masked (layers : List (List Int)) (mask : List (List Bool))
deriving DecidableEq, Repr

/-- The layer values of a stack result (what `read(masked=False)` would see
again after the result is packed to disk). -/
def stackLayers : StackResult → List (List Int)
  | StackResult.plain ls => ls
  | StackResult.masked ls _ => ls

/-- `OutputData.empty`: `np.full((bands,) + tile.shape, nodata)` expanded by
`ndmin=ndim` and fully masked.  For the single-file stack layout
(`ndim` = per-slice dimensions + 1) the `ndmin` expansion prepends a
length-one axis, so the placeholder is a single all-nodata layer;
`sliceSize` is the flattened per-slice element count
(`bands * tile height * tile width`). -/
def empty (cfg : Config) (sliceSize : Nat) : List (List Int) :=
  [List.replicate sliceSize cfg.nodata]

/-- `np.where(mask, a, b)` element-wise on one layer. -/
def npWhere (mask : List Bool) (a b : List Int) : List Int :=
  (mask.zip (a.zip b)).map (fun p => if p.1 then p.2.1 else p.2.2)

/-- The test `isinstance(new_array.mask, np.bool_)` followed by
`not new_array.mask`: true exactly for the scalar `nomask`. -/
def maskIsScalarFalse : NpMask → Bool
  | NpMask.scalar b => !b
  | NpMask.arr _ => false

/-- A mask as a full per-element boolean list (`np.stack` of the mask
broadcasts a scalar over the slice shape). -/
def broadcastMask (m : NpMask) (n : Nat) : List Bool :=
  match m with
  | NpMask.scalar b => List.replicate n b
  | NpMask.arr msk => msk

/-- `OutputData.add_to_stack(new_array, output_tile, nodata=None,
close_gaps=False)`.  `stackOnDisk` is what `self.open(output_tile)
.read(masked=False)` produced (`none` when the tile file is absent, in
which case the source substitutes `self.empty(output_tile)`).  The source's
`if not nodata: nodata = 0` maps both `None` and `0` to `0`.  The all-nodata
early-return tests the raw data values (`np.where(new_array == nodata, ...)`
ignores any mask).  With `close_gaps`: `stack2` appends an all-nodata layer
at the bottom, the scalar-`nomask` shortcut returns the plain prepended
stack, otherwise the new slice's mask selects per pixel between the two
stacks, `ma.masked_where(new_stack == nodata, new_stack)` re-derives the
mask (shrinking to `nomask` when no cell is nodata, hence the
`StackResult.plain` return), and a final bottom layer that is entirely
masked is dropped (`masked_stack[:-1]`). -/
def add_to_stack (cfg : Config) (stackOnDisk : Option (List (List Int)))
    (sliceSize : Nat) (new_array : MaskedSlice) (nodata : Option Int)
    (close_gaps : Bool) : StackResult :=
  let stack := match stackOnDisk with
    | some s => s
    | none => empty cfg sliceSize
  let nd : Int := nodata.getD 0
  if new_array.data.all (fun x => decide (x = nd)) then
    StackResult.plain stack
  else
    let stack1 := new_array.data :: stack
    if close_gaps then
      let stack2 := stack ++ [List.replicate new_array.data.length nd]
      if maskIsScalarFalse new_array.mask then
        StackResult.plain stack1
      else
        let maskArr := broadcastMask new_array.mask new_array.data.length
        let new_stack := (stack2.zip stack1).map (fun p => npWhere maskArr p.1 p.2)
        let dmask := new_stack.map (fun l => l.map (fun x => decide (x = nd)))
        if dmask.all (fun l => l.all (fun b => b == false)) then
          StackResult.plain new_stack
        else if (dmask.getLastD []).all (fun b => b == true) then
          StackResult.masked new_stack.dropLast dmask.dropLast
        else
          StackResult.masked new_stack dmask
    else
      StackResult.plain stack1

/-- One step of merging a sequence of plain slices through `add_to_stack`
with gap-closing disabled, as the single-file write path does (`nodata`
left at its default, the slice a plain ndarray whose `.mask` attribute is
never consulted because `close_gaps` is false). -/
def mergeStep (cfg : Config) (sliceSize : Nat)
    (acc : Option (List (List Int))) (s : List Int) :
    Option (List (List Int)) :=
  some (stackLayers
    (add_to_stack cfg acc sliceSize ⟨s, NpMask.scalar false⟩ none false))

/-- Merging a sequence of slices one after another into an initially absent
stack (`none`), each merge reading back the previous result. -/
def mergeSeq (cfg : Config) (sliceSize : Nat) (slices : List (List Int)) :
    Option (List (List Int)) :=
  slices.foldl (mergeStep cfg sliceSize) none

/-- A sample configuration: one band, dtype `uint8`, `ndim` 4, nodata 0,
single-file mode. -/
def cfgA : Config := ⟨1, "out", "uint8", 4, 0, true⟩

/-- A sample configuration whose nodata value is 5 rather than the
default 0. -/
def cfgB : Config := ⟨1, "out", "uint8", 4, 5, true⟩

/-- The array value `write` receives: either a plain numeric ndarray or a
masked array, with its dimensionality and (flattened) contents.  The mask
of a masked array is the per-element boolean list (`ma.masked_array` data
plus `.mask`). -/
inductive WriteInput where
  | plain (ndim : Nat) (data : List Int)
  | masked (ndim : Nat) (data : List Int) (mask : List Bool)
deriving DecidableEq, Repr

/-- A Python object as seen by `isinstance` checks inside `verify_data`. -/
inductive PyObj where
  | ndarrayObj (ndim : Nat)
  | memoryview
deriving DecidableEq, Repr

/-- The Python attribute access `x.data`.  `write` passes the *array*
itself to `verify_data`, whose body then reads `tile.data`: for a plain
`np.ndarray` this yields the buffer `memoryview`, while for a
`ma.MaskedArray` it yields the underlying ndarray (same dimensionality). -/
def dataAttr : WriteInput → PyObj
  | WriteInput.plain _ _ => PyObj.memoryview
  | WriteInput.masked nd _ _ => PyObj.ndarrayObj nd

/-- `OutputData.verify_data(tile)` as invoked by `write`
(`self.verify_data(process_tile.data)`): the argument bound to `tile` is
the array, so both asserts inspect `array.data`.  The first
`assert isinstance(tile.data, (np.ndarray, ma.MaskedArray))` failure is
turned into the type `ValueError`; the second checks the dimensionality
against `ndim` and `ndim - 1`. -/
def verify_data (ndimCfg : Nat) (x : WriteInput) : Except String Unit :=
  match dataAttr x with
  | PyObj.memoryview =>
      Except.error "process output must be a NumPy ndarray or MaskedArray."
  | PyObj.ndarrayObj nd =>
      if nd = ndimCfg ∨ nd = ndimCfg - 1 then Except.ok ()
      else Except.error "process output must have ndim dimensions"

/-- `masked_data.filled()` after `set_fill_value(nodata)`: masked cells are
replaced by the nodata value. -/
def fillMasked (nd : Int) (data : List Int) (mask : List Bool) : List Int :=
  (data.zip mask).map (fun p => if p.2 then nd else p.1)

/-- `OutputData.prepare_data(data)` for the single-file layout: a plain
ndarray is first wrapped by `ma.masked_where(data == nodata, data)`, a
masked array is kept; then `set_fill_value(nodata)` and `.filled()` yield
the plain values that are packed to disk.  (The directory-mode branches
also return `.filled()` values, possibly squeezing a leading length-one
axis, which does not change any element.) -/
def prepare_data (cfg : Config) (inp : WriteInput) : List Int :=
  match inp with
  | WriteInput.plain _ d =>
      fillMasked cfg.nodata d (d.map (fun x => decide (x = cfg.nodata)))
  | WriteInput.masked _ d m => fillMasked cfg.nodata d m

/-- The filesystem visible to the store: stored stacks keyed by tile path.
An overwrite shadows the previous entry (lookup finds the newest). -/
abbrev FS := List (String × List (List Int))

/-- `bp.pack_ndarray_file(out_data, out_path)`: store the array at the
path.  Per §4.2 of the spec the codec itself is an exact round trip on the
plain array, so packing is modelled as storing the layer values. -/
def fsInsert (fs : FS) (p : String) (v : List (List Int)) : FS :=
  (p, v) :: fs

/-- `OutputData.tiles_exist`: all destination tile paths already exist
(existence only, contents never inspected). -/
def tiles_exist (fs : FS) (tilePaths : List String) : Bool :=
  tilePaths.all (fun p => (fs.lookup p).isSome)

/-- `OutputData._write_tile(tile, out_data)` in single-file mode: return
untouched when every element of `out_data` equals the *configured* nodata
value; otherwise merge into the on-disk stack via `add_to_stack(out_data,
out_tile)` — note that neither `nodata` nor `close_gaps` is forwarded, so
the merge runs with its defaults — and pack the result at the tile path.
`out_data` is a plain ndarray here, whose `.mask` attribute the
`close_gaps=False` merge never consults; `empty()`'s per-slice shape
coincides with the extracted slice's shape, so its flattened size is
`out_data.length`. -/
def writeTileFS (cfg : Config) (tilePath : String) (out_data : List Int)
    (fs : FS) : FS :=
  if out_data.all (fun x => decide (x = cfg.nodata)) then fs
  else
    let merged := stackLayers
      (add_to_stack cfg (fs.lookup tilePath) out_data.length
        ⟨out_data, NpMask.scalar false⟩ none false)
    fsInsert fs tilePath merged

/-- `OutputData.write(process_tile)` in single-file mode: verify the data,
canonicalize it via `prepare_data`, return without touching the filesystem
when every element of the prepared array equals the configured nodata
value, and otherwise dispatch one `_write_tile` per intersecting
destination tile (`tiles`), each receiving the sub-array produced by the
external raster-extraction collaborator (`extract`). -/
def write (cfg : Config) (tiles : List String) (extract : String → List Int)
    (inp : WriteInput) (fs : FS) : Except String FS :=
  match verify_data cfg.ndim inp with
  | Except.error e => Except.error e
  | Except.ok _ =>
    let prepared := prepare_data cfg inp
    if prepared.all (fun x => decide (x = cfg.nodata)) then Except.ok fs
    else Except.ok (tiles.foldl (fun f t => writeTileFS cfg t (extract t) f) fs)

/-- Decoding on the read side: `bp.unpack_ndarray_file` recovers the plain
values exactly (§4.2 codec contract) and `ma.masked_where(data == nodata,
data)` re-derives the validity mask from the nodata value. -/
def decode_masked (nd : Int) (v : List Int) : List Int × List Bool :=
  (v, v.map (fun x => decide (x = nd)))

/-- The encode/decode pipeline applied to one persisted masked array:
`prepare_data`'s fill followed by the pack/unpack round trip and the
nodata-derived re-masking done by `read(masked=True)`. -/
def round_trip (nd : Int) (data : List Int) (mask : List Bool) :
    List Int × List Bool :=
  decode_masked nd (fillMasked nd data mask)

namespace InputTile

/-- What `InputTile._cache["data"]` can hold after a `read` call:
the Python `None` sentinel (missing path, or a decode failure on the
unmasked path); the 0-dimensional object masked array produced by
`ma.masked_where(None == nodata, None)` when a decode failure is wrapped on
the masked path — a masked-array instance with `nomask` whose sole element
is `None`; a raw decoded ndarray (`masked=False`); or the decoded array
re-masked by `ma.masked_where(data == nodata, data)`, whose mask shrinks to
the scalar `nomask` when no element equals nodata. -/
inductive CacheVal where
  | pyNone
  | wrappedNone
  | plainArr (data : List Int)
  | maskedArr (data : List Int) (mask : NpMask)
deriving DecidableEq, Repr

/-- `InputTile.read(masked=True)`.  `pathMissing` is the result of the
mode-appropriate existence test (`not os.path.isfile(self.path)` in
single-file mode, `not os.path.isdir(self.path)` in directory mode);
`decoded` is the outcome of `self._read_numpy(self.path)` — `none` when
blosc fails to decode (the source warns and returns `None`).  The first
call fills the cache; every later call returns the cached value without
consulting the filesystem arguments at all.  The pair returned is
(value handed to the caller, cache afterwards). -/
def read (nd : Int) (pathMissing : Bool) (decoded : Option (List Int))
    (masked : Bool) (cache : Option CacheVal) :
    CacheVal × Option CacheVal :=
  match cache with
  | some v => (v, some v)
  | none =>
    if pathMissing then (CacheVal.pyNone, some CacheVal.pyNone)
    else
      match decoded with
      | none =>
        if masked then (CacheVal.wrappedNone, some CacheVal.wrappedNone)
        else (CacheVal.pyNone, some CacheVal.pyNone)
      | some d =>
        if masked then
          let cond := d.map (fun x => decide (x = nd))
          let mk := if cond.all (fun b => b == false) then NpMask.scalar false
            else NpMask.arr cond
          (CacheVal.maskedArr d mk, some (CacheVal.maskedArr d mk))
        else (CacheVal.plainArr d, some (CacheVal.plainArr d))

/-- `InputTile.is_empty()`: true immediately when the path is missing;
otherwise the cached/decoded value from `read()` is inspected — a masked
array whose mask is all true is empty, an ndarray whose every element
equals nodata is empty, everything else (including the wrapped decode
failure, whose `nomask.all()` is false and whose sole element `None` never
equals nodata, and the bare `None`, which is no ndarray) is not. -/
def is_empty (nd : Int) (pathMissing : Bool) (decoded : Option (List Int))
    (cache : Option CacheVal) : Bool × Option CacheVal :=
  if pathMissing then (true, cache)
  else
    match read nd pathMissing decoded true cache with
    | (v, c) =>
      match v with
      | CacheVal.pyNone => (false, c)
      | CacheVal.wrappedNone => (false, c)
      | CacheVal.plainArr d => (d.all (fun x => decide (x = nd)), c)
      | CacheVal.maskedArr d mk =>
          ((match mk with
            | NpMask.scalar b => b
            | NpMask.arr msk => msk.all (fun b => b == true))
            || d.all (fun x => decide (x = nd)), c)

end InputTile

/-- A value held in the configuration mapping handed to
`is_valid_with_config`. -/
inductive CfgVal where
  | intV (n : Int)
  | strV (s : String)
  | otherV
deriving DecidableEq, Repr

/-- `OutputData.is_valid_with_config(config)`: four pairs of bare asserts —
key present, value of the asserted type — checked in order for `bands`
(int), `path` (str), `dtype` (str) and `ndim` (int); on success the
function returns `True`.  A failing assert raises `AssertionError` (no
message text of its own). -/
def is_valid_with_config (config : List (String × CfgVal)) :
    Except String Bool :=
  match config.lookup "bands" with
  | some (CfgVal.intV _) =>
    match config.lookup "path" with
    | some (CfgVal.strV _) =>
      match config.lookup "dtype" with
      | some (CfgVal.strV _) =>
        match config.lookup "ndim" with
        | some (CfgVal.intV _) => Except.ok true
        | _ => Except.error "AssertionError: ndim"
      | _ => Except.error "AssertionError: dtype"
    | _ => Except.error "AssertionError: path"
  | _ => Except.error "AssertionError: bands"

/-- Modelled from the spec (§3, for the refinement comparison of C9): the
full data-model requirements the claim attributes to the validator — band
count a positive integer, storage path a string, element dtype a string,
and `ndim` a positive integer at least 2. -/
def claimRequirements (config : List (String × CfgVal)) : Bool :=
  (match config.lookup "bands" with
    | some (CfgVal.intV n) => decide (0 < n)
    | _ => false)
  && (match config.lookup "path" with
    | some (CfgVal.strV _) => true
    | _ => false)
  && (match config.lookup "dtype" with
    | some (CfgVal.strV _) => true
    | _ => false)
  && (match config.lookup "ndim" with
    | some (CfgVal.intV n) => decide (2 ≤ n)
    | _ => false)

/-- The checks the source actually performs: presence and Python type of
the four required keys, nothing about their numeric range. -/
def typeChecks (config : List (String × CfgVal)) : Bool :=
  (match config.lookup "bands" with
    | some (CfgVal.intV _) => true
    | _ => false)
  && (match config.lookup "path" with
    | some (CfgVal.strV _) => true
    | _ => false)
  && (match config.lookup "dtype" with
    | some (CfgVal.strV _) => true
    | _ => false)
  && (match config.lookup "ndim" with
    | some (CfgVal.intV _) => true
    | _ => false)

/-- The configuration used by C9's counterexample: all four keys present
with the types the source asserts, but a non-positive band count and a
dimensionality below 2. -/
def cfgBad : List (String × CfgVal) :=
  [("bands", CfgVal.intV 0), ("path", CfgVal.strV "out"),
   ("dtype", CfgVal.strV "uint8"), ("ndim", CfgVal.intV 1)]

/-!
## Sanity checks on concrete inputs

Small evaluations of the embedded code, matching hand traces of the Python
source on the same inputs.
-/

example : mergeSeq cfgA 1 [[1]] = some [[1], [0]] := by decide

example : mergeSeq cfgA 1 [[1], [2]] = some [[2], [1], [0]] := by decide

example :
    add_to_stack cfgA (some [[5]]) 1 ⟨[7], NpMask.arr [true]⟩ none false
      = StackResult.plain [[7], [5]] := by decide

example :
    add_to_stack cfgA (some [[3]]) 1 ⟨[2], NpMask.arr [true]⟩ none true
      = StackResult.masked [[3]] [[false]] := by decide

example :
    add_to_stack cfgA (some [[3]]) 1 ⟨[0], NpMask.arr [true]⟩ none true
      = StackResult.plain [[3]] := by decide

example : (InputTile.is_empty 0 false (some [0, 0]) none).1 = true := by
  decide

example : (InputTile.is_empty 0 false (some [0, 7]) none).1 = false := by
  decide

/-!
## Helper lemmas
-/

/-- With gap-closing disabled and the merge's nodata left at its default,
a slice that is not entirely zero is prepended to the existing stack. -/
theorem add_to_stack_prepend (cfg : Config) (A : List (List Int)) (sz : Nat)
    (d : List Int) (mk : NpMask)
    (h : d.all (fun x => decide (x = (0 : Int))) = false) :
    add_to_stack cfg (some A) sz ⟨d, mk⟩ none false
      = StackResult.plain (d :: A) := by
  simp [add_to_stack, h]

/-- Folding `mergeStep` from an already-present stack prepends the slices
in order, newest first. -/
theorem mergeStep_foldl (cfg : Config) (sz : Nat) :
    ∀ (slices : List (List Int)) (A : List (List Int)),
      (∀ s ∈ slices, s.all (fun x => decide (x = (0 : Int))) = false) →
      slices.foldl (mergeStep cfg sz) (some A)
        = some (slices.reverse ++ A) := by
  intro slices
  induction slices with
  | nil => intro A _; simp
  | cons s rest ih =>
    intro A h
    rw [List.foldl_cons]
    have hstep : mergeStep cfg sz (some A) s = some (s :: A) := by
      simp [mergeStep, stackLayers,
        add_to_stack_prepend cfg A sz s (NpMask.scalar false)
          (h s (List.mem_cons_self _ _))]
    rw [hstep, ih (s :: A) (fun t ht => h t (List.mem_cons_of_mem _ ht))]
    simp

/-- Comparing a boolean against `true` with `==` is the identity. -/
theorem beq_true_eq (b : Bool) : (b == true) = b := by
  cases b <;> rfl

/-- `all` over a mapped boolean list against the predicate `· == true` is
`all` of the original predicate. -/
theorem all_map_beq_true (f : Int → Bool) :
    ∀ d : List Int, (d.map f).all (fun b => b == true) = d.all f := by
  intro d
  induction d with
  | nil => rfl
  | cons x t ih =>
    simp only [List.map_cons, List.all_cons, beq_true_eq] at ih ⊢
    rw [ih]

/-!
## Claim C1
-/

/-- Claim C1 (counterexample): merging N = 1 fully-valid slice into an
initially absent stack with gap-closing disabled does *not* yield a stack
of exactly 1 layer — the absent stack is initialized as `empty()`, whose
`ndmin` expansion already carries one all-nodata layer, so the result has
2 layers. -/
theorem merge_sequence_counterexample :
    mergeSeq cfgA 1 [[1]] = some [[1], [0]]
      ∧ (mergeSeq cfgA 1 [[1]]).map List.length ≠ some 1 := by
  exact ⟨by decide, by decide⟩

/-- Claim C1 (amended): merging N sequential fully-valid same-shape slices
(gap-closing disabled) into an initially absent stack yields a stack of
exactly N + 1 layers: the N slices newest-first (the most recently merged
slice at index 0), followed by the single all-nodata placeholder layer
contributed by initializing the absent stack via `empty()`. -/
theorem merge_sequence_layer_count (cfg : Config) (m : Nat)
    (slices : List (List Int)) (hne : slices ≠ [])
    (_hlen : ∀ s ∈ slices, s.length = m)
    (hval : ∀ s ∈ slices, s.all (fun x => decide (x = (0 : Int))) = false) :
    mergeSeq cfg m slices
      = some (slices.reverse ++ [List.replicate m cfg.nodata]) := by
  cases slices with
  | nil => exact absurd rfl hne
  | cons s rest =>
    unfold mergeSeq
    rw [List.foldl_cons]
    have h0 : mergeStep cfg m none s
        = some (s :: [List.replicate m cfg.nodata]) := by
      simp [mergeStep, stackLayers, add_to_stack, empty,
        hval s (List.mem_cons_self _ _)]
    rw [h0,
      mergeStep_foldl cfg m rest _
        (fun t ht => hval t (List.mem_cons_of_mem _ ht))]
    simp

/-- Witness for C1's amended theorem at N = 2 concrete slices. -/
theorem merge_sequence_layer_count_witness :
    mergeSeq cfgA 1 [[1], [2]] = some [[2], [1], [0]] :=
  merge_sequence_layer_count cfgA 1 [[1], [2]] (by decide) (by decide)
    (by decide)

/-!
## Claim C2
-/

/-- Claim C2 (code bug, evaluated at the failing input): `write` passes the
array itself to `verify_data`, whose body inspects `tile.data`.  For a
plain ndarray of the configured dimensionality 4 — exactly what the
repository's own test writes — that attribute is a memoryview, so the
isinstance check fails and the type `ValueError` is raised even though the
code's own error message and test declare plain ndarrays acceptable.  A
masked array of dimensionality 4 passes validation. -/
theorem verify_data_rejects_plain_ndarray :
    verify_data 4 (WriteInput.plain 4 (List.replicate 4 1))
        = Except.error "process output must be a NumPy ndarray or MaskedArray."
      ∧ verify_data 4 (WriteInput.masked 4 [1] [false]) = Except.ok () :=
  ⟨rfl, rfl⟩

/-!
## Claim C3
-/

/-- Claim C3 (confirmed): a `write` whose validated, canonicalized array is
entirely invalid — every element masked or equal to the configured nodata
value — returns with the filesystem exactly as it was: no per-tile write is
dispatched, so no file is created, modified or deleted and `tiles_exist`
answers the same before and after. -/
theorem write_all_invalid_is_noop (cfg : Config) (tiles : List String)
    (extract : String → List Int) (n : Nat) (d : List Int) (m : List Bool)
    (fs : FS) (hdim : n = cfg.ndim ∨ n = cfg.ndim - 1)
    (hinv : ∀ p ∈ d.zip m, p.2 = true ∨ p.1 = cfg.nodata) :
    write cfg tiles extract (WriteInput.masked n d m) fs = Except.ok fs := by
  have hv : verify_data cfg.ndim (WriteInput.masked n d m) = Except.ok () := by
    simp [verify_data, dataAttr, hdim]
  have hall : (prepare_data cfg (WriteInput.masked n d m)).all
      (fun x => decide (x = cfg.nodata)) = true := by
    simp only [prepare_data, fillMasked, List.all_eq_true, List.mem_map,
      decide_eq_true_eq]
    rintro x ⟨p, hp, rfl⟩
    rcases hinv p hp with h | h
    · simp [h]
    · by_cases hb : p.2 <;> simp [hb, h]
  simp [write, hv, hall]

/-- Witness for C3 on a concrete all-invalid masked array and a non-empty
filesystem. -/
theorem write_all_invalid_is_noop_witness :
    write cfgA ["out/5/1/1.np"] (fun _ => [1])
        (WriteInput.masked 4 [0, 7] [false, true]) [("out/5/1/1.np", [[1]])]
      = Except.ok [("out/5/1/1.np", [[1]])] :=
  write_all_invalid_is_noop cfgA ["out/5/1/1.np"] (fun _ => [1]) 4 [0, 7]
    [false, true] [("out/5/1/1.np", [[1]])] (Or.inl rfl) (by decide)

/-!
## Claim C5
-/

/-- Claim C5 (counterexample): a new slice that is entirely invalid in the
mask sense — mask all true, underlying values not equal to nodata — is
*not* a no-op for the merge: `add_to_stack`'s invalidity test compares raw
data values against its own nodata argument (defaulted to 0) and ignores
the mask, so the slice is prepended and the stack grows. -/
theorem merge_masked_slice_not_noop :
    add_to_stack cfgA (some [[5]]) 1 ⟨[7], NpMask.arr [true]⟩ none false
        = StackResult.plain [[7], [5]]
      ∧ add_to_stack cfgA (some [[5]]) 1 ⟨[7], NpMask.arr [true]⟩ none false
          ≠ StackResult.plain [[5]] :=
  ⟨by decide, by decide⟩

/-- Claim C5 (amended): the merge returns the existing stack unchanged
exactly for slices whose every raw element equals the merge's *own* nodata
argument (defaulted to 0 — the configured nodata value is never consulted
by `add_to_stack`); an all-masked slice with other values is prepended
instead.  The per-tile write path never passes its configured nodata to the
merge, but it filters slices that are entirely the configured nodata value
before invoking it, leaving the filesystem untouched for them. -/
theorem merge_nodata_slice_is_noop (cfg : Config) (S : List (List Int))
    (sz : Nat) (d : List Int) (mk : NpMask) (nodata : Option Int)
    (close_gaps : Bool)
    (h : d.all (fun x => decide (x = nodata.getD 0)) = true) :
    add_to_stack cfg (some S) sz ⟨d, mk⟩ nodata close_gaps
        = StackResult.plain S
      ∧ ∀ (p : String) (out : List Int) (fs : FS),
          out.all (fun x => decide (x = cfg.nodata)) = true →
          writeTileFS cfg p out fs = fs := by
  constructor
  · simp [add_to_stack, h]
  · intro p out fs hout
    simp [writeTileFS, hout]

/-- Witness for C5's amended theorem: an all-zero slice is a merge no-op,
and with configured nodata 5 the per-tile write path drops an all-5 slice
without touching the filesystem. -/
theorem merge_nodata_slice_is_noop_witness :
    add_to_stack cfgB (some [[3]]) 1 ⟨[0], NpMask.scalar false⟩ none false
        = StackResult.plain [[3]]
      ∧ writeTileFS cfgB "out/5/1/1.np" [5, 5] [] = [] := by
  have T := merge_nodata_slice_is_noop cfgB [[3]] 1 [0] (NpMask.scalar false)
    none false (by decide)
  exact ⟨T.1, T.2 "out/5/1/1.np" [5, 5] [] (by decide)⟩

/-!
## Claim C6
-/

/-- Claim C6 (code bug, evaluated at the failing input): on a freshly
opened reader whose resolved path does not exist, `is_empty()` does return
true, but `read()` caches and returns the bare Python `None` — not an
all-invalid masked array of the configured empty shape as the claim (and
the repository's own tests, which assert `output.ndim == 4` and
`output.mask.all()` after deleting the file) require. -/
theorem read_missing_path_returns_none :
    InputTile.read 0 true none true none
        = (InputTile.CacheVal.pyNone, some InputTile.CacheVal.pyNone)
      ∧ (InputTile.is_empty 0 true none none).1 = true :=
  ⟨rfl, rfl⟩

/-!
## Claim C7
-/

/-- Claim C7 (counterexample): with the path present but the file
undecodable, `is_empty()` on a fresh reader returns false — the decode
failure is cached as `ma.masked_where(None == nodata, None)`, a masked
wrapper with `nomask` whose element is `None`, which passes neither the
mask-all-true test nor the all-nodata test — whereas the claim requires
decode failures to count as empty. -/
theorem is_empty_decode_failure_false :
    (InputTile.is_empty 0 false none none).1 = false :=
  rfl

/-- Claim C7 (amended): on a fresh single-file reader `is_empty()` never
raises, and it returns true exactly when the path does not exist or the
file decodes and every element equals the configured nodata value; a decode
failure yields false, not true (the absent result is wrapped in a masked
scalar that is neither fully masked nor nodata-valued). -/
theorem is_empty_characterization (nd : Int) (missing : Bool)
    (decoded : Option (List Int)) :
    (InputTile.is_empty nd missing decoded none).1
      = (missing
        || (decoded.map (fun d => d.all (fun x => decide (x = nd)))).getD
            false) := by
  cases missing with
  | true => rfl
  | false =>
    cases decoded with
    | none => rfl
    | some d =>
      by_cases hc :
          (d.map (fun x => decide (x = nd))).all (fun b => b == false) = true
      · show ((match (if (d.map (fun x => decide (x = nd))).all
                (fun b => b == false) = true then NpMask.scalar false
                else NpMask.arr (d.map (fun x => decide (x = nd)))) with
              | NpMask.scalar b => b
              | NpMask.arr msk => msk.all (fun b => b == true))
            || d.all (fun x => decide (x = nd)))
          = _
        rw [if_pos hc]
        simp
      · show ((match (if (d.map (fun x => decide (x = nd))).all
                (fun b => b == false) = true then NpMask.scalar false
                else NpMask.arr (d.map (fun x => decide (x = nd)))) with
              | NpMask.scalar b => b
              | NpMask.arr msk => msk.all (fun b => b == true))
            || d.all (fun x => decide (x = nd)))
          = _
        rw [if_neg hc]
        show ((d.map (fun x => decide (x = nd))).all (fun b => b == true)
            || d.all (fun x => decide (x = nd))) = _
        rw [all_map_beq_true, Bool.or_self]
        simp

/-!
## Claim C8
-/

/-- Claim C8 (counterexample): the persisted pipeline is not an exact round
trip on the mask — a fully valid array whose first element happens to equal
the nodata value 0 is read back with that element masked. -/
theorem round_trip_not_exact :
    round_trip 0 [0, 1] [false, false] = ([0, 1], [true, false])
      ∧ round_trip 0 [0, 1] [false, false] ≠ ([0, 1], [false, false]) :=
  ⟨by decide, by decide⟩

/-- The fill step is the identity when the mask is exactly the
nodata-indicator of the values. -/
theorem fillMasked_derived (nd : Int) :
    ∀ d : List Int,
      fillMasked nd d (d.map (fun x => decide (x = nd))) = d := by
  intro d
  induction d with
  | nil => rfl
  | cons x t ih =>
    have ih' := ih
    simp only [fillMasked] at ih'
    simp only [fillMasked, List.map_cons, List.zip_cons_cons, List.cons.injEq]
    constructor
    · by_cases hx : x = nd <;> simp [hx]
    · exact ih'

/-- Claim C8 (amended): the store persists the filled values (masked cells
replaced by nodata) and `read` re-derives the mask as `value == nodata`, so
the encode/decode pipeline recovers `(A, M)` exactly precisely when `M`
already is the nodata-indicator of the values — in particular a valid cell
holding the nodata value comes back masked. -/
theorem round_trip_exact_iff_mask_matches (nd : Int) (d : List Int)
    (m : List Bool) (h : m = d.map (fun x => decide (x = nd))) :
    round_trip nd d m = (d, m) := by
  subst h
  simp [round_trip, decode_masked, fillMasked_derived nd d]

/-- Witness for C8's amended theorem on a concrete array with a mixed
mask. -/
theorem round_trip_exact_witness :
    round_trip 0 [0, 1] [true, false] = ([0, 1], [true, false]) :=
  round_trip_exact_iff_mask_matches 0 [0, 1] [true, false] (by decide)

/-!
## Claim C10
-/

/-- Claim C10 (confirmed): the `masked` argument of `read` is honored only
on the first call.  Whatever the first call cached, every subsequent call —
with either value of `masked`, and regardless of the filesystem's state at
that moment (the file may have been deleted or changed, here arbitrary
`missing2`/`decoded2`) — returns the identical cached value and leaves the
cache untouched. -/
theorem read_cached_after_first_call (nd : Int) (missing : Bool)
    (decoded : Option (List Int)) (b1 : Bool) (missing2 : Bool)
    (decoded2 : Option (List Int)) (b2 : Bool) :
    InputTile.read nd missing2 decoded2 b2
        (InputTile.read nd missing decoded b1 none).2
      = ((InputTile.read nd missing decoded b1 none).1,
        (InputTile.read nd missing decoded b1 none).2) := by
  have hsome : (InputTile.read nd missing decoded b1 none).2
      = some (InputTile.read nd missing decoded b1 none).1 := by
    cases missing <;> cases decoded <;> cases b1 <;> rfl
  rw [hsome]
  rfl

/-!
## Claim C4
-/

/-- `np.where` with an all-true mask of matching length selects the first
array. -/
theorem npWhere_replicate_true (a : List Int) :
    ∀ b : List Int, b.length = a.length →
      npWhere (List.replicate a.length true) a b = a := by
  induction a with
  | nil => intro b _; rfl
  | cons x t ih =>
    intro b hb
    cases b with
    | nil => simp at hb
    | cons y u =>
      have hb' : u.length = t.length := by simpa using hb
      have ht := ih u hb'
      simp [npWhere, List.replicate_succ, List.zip_cons_cons] at ht ⊢
      exact ht

/-- The nodata-indicator of a list with no element equal to `nd` is the
all-false mask. -/
theorem map_decide_eq_replicate_false (nd : Int) :
    ∀ l : List Int, (∀ x ∈ l, x ≠ nd) →
      l.map (fun x => decide (x = nd)) = List.replicate l.length false := by
  intro l
  induction l with
  | nil => intro _; rfl
  | cons x t ih =>
    intro h
    simp only [List.map_cons, List.length_cons, List.replicate_succ,
      List.cons.injEq]
    exact ⟨by simp [h x (List.mem_cons_self _ _)],
      ih (fun y hy => h y (List.mem_cons_of_mem _ hy))⟩

/-- An all-true replicated mask passes the `· == true` test. -/
theorem all_replicate_beq_true (k : Nat) :
    (List.replicate k true).all (fun b => b == true) = true := by
  induction k with
  | zero => rfl
  | succ k ih => simp [List.replicate_succ, ih]

/-- The default-last element of a nonempty list is one of its members. -/
theorem getLastD_mem {α : Type} (l : List α) (dflt : α) (h : l ≠ []) :
    l.getLastD dflt ∈ l := by
  induction l generalizing dflt with
  | nil => exact absurd rfl h
  | cons a t ih =>
    cases t with
    | nil => simp
    | cons b u =>
      rw [List.getLastD_cons]
      exact List.mem_cons_of_mem _ (ih a (by simp))

/-- A nonempty boolean list that is entirely `true` fails the entirely
`false` test. -/
theorem all_true_all_false_clash (l : List Bool) (hne : l ≠ [])
    (ht : l.all (fun b => b == true) = true) :
    l.all (fun b => b == false) = false := by
  cases l with
  | nil => exact absurd rfl hne
  | cons x t =>
    simp only [List.all_cons, Bool.and_eq_true, beq_iff_eq] at ht
    simp [ht.1]

/-- The gap-closing branch of `add_to_stack` for a per-element mask array:
when the candidate stack selected by `np.where` has a nonempty bottom layer
that is entirely nodata — so its derived mask cannot shrink to the scalar
`nomask` — that bottom layer (and only it) is dropped.  `new_stack` and
`dmask` are the source's `np.where(mask_stack, stack2, stack1)` candidate
and the mask `ma.masked_where` derives from it. -/
theorem add_to_stack_close_gaps_drop (cfg : Config) (S : List (List Int))
    (sz : Nat) (d : List Int) (m : List Bool) (nodata : Option Int)
    (new_stack : List (List Int)) (dmask : List (List Bool))
    (hns : new_stack = ((S ++ [List.replicate d.length (nodata.getD 0)]).zip
      (d :: S)).map (fun p => npWhere m p.1 p.2))
    (hdm : dmask = new_stack.map
      (fun l => l.map (fun x => decide (x = nodata.getD 0))))
    (hguard : d.all (fun x => decide (x = nodata.getD 0)) = false)
    (hne : dmask.getLastD [] ≠ [])
    (hbot : (dmask.getLastD []).all (fun b => b == true) = true) :
    add_to_stack cfg (some S) sz ⟨d, NpMask.arr m⟩ nodata true
      = StackResult.masked new_stack.dropLast dmask.dropLast := by
  have hdne : dmask ≠ [] := by
    intro hcon
    rw [hcon] at hne
    exact hne rfl
  have hfalse : dmask.all (fun l => l.all (fun b => b == false)) = false := by
    by_contra hcon
    have htrue : dmask.all (fun l => l.all (fun b => b == false)) = true := by
      revert hcon
      cases dmask.all (fun l => l.all (fun b => b == false)) <;> simp
    have hlast := List.all_eq_true.mp htrue _ (getLastD_mem dmask [] hdne)
    rw [all_true_all_false_clash (dmask.getLastD []) hne hbot] at hlast
    exact absurd hlast (by simp)
  simp only [add_to_stack, maskIsScalarFalse, broadcastMask, hguard,
    Bool.false_eq_true, if_false, if_true]
  rw [← hns, ← hdm, hfalse, hbot]
  simp

/-- Claim C4 (counterexample): with gap-closing enabled, a new slice whose
mask is the scalar `nomask` (`np.bool_` false) takes the shortcut at the
`isinstance` check and the prepended stack is returned as-is — its
bottom-most layer, entirely nodata here, is *not* dropped. -/
theorem close_gaps_scalar_mask_keeps_invalid_bottom :
    add_to_stack cfgA (some [[0]]) 1 ⟨[1], NpMask.scalar false⟩ none true
        = StackResult.plain [[1], [0]]
      ∧ (stackLayers (add_to_stack cfgA (some [[0]]) 1
          ⟨[1], NpMask.scalar false⟩ none true)).getLastD [] = [0]
      ∧ add_to_stack cfgA (some [[0]]) 1 ⟨[1], NpMask.scalar false⟩ none true
          ≠ StackResult.plain [[1]] :=
  ⟨by decide, by decide, by decide⟩

/-- Claim C4 (amended): with gap-closing enabled, whenever the new slice
carries a per-element mask array and the merged candidate selected by
`np.where` has a nonempty bottom-most layer that is entirely invalid
(all nodata), that layer — and only that one layer — is dropped from the
returned stack; the scalar `nomask` shortcut skips this trimming.  In
particular, merging a fully invalid new slice — all elements nodata, or
mask all true — into a stack of one fully valid layer returns that layer
unchanged. -/
theorem close_gaps_trims_bottom_layer (cfg : Config) (sz : Nat) :
    (∀ (S : List (List Int)) (d : List Int) (m : List Bool)
        (nodata : Option Int) (new_stack : List (List Int))
        (dmask : List (List Bool)),
      new_stack = ((S ++ [List.replicate d.length (nodata.getD 0)]).zip
          (d :: S)).map (fun p => npWhere m p.1 p.2) →
      dmask = new_stack.map
          (fun l => l.map (fun x => decide (x = nodata.getD 0))) →
      d.all (fun x => decide (x = nodata.getD 0)) = false →
      dmask.getLastD [] ≠ [] →
      (dmask.getLastD []).all (fun b => b == true) = true →
      add_to_stack cfg (some S) sz ⟨d, NpMask.arr m⟩ nodata true
        = StackResult.masked new_stack.dropLast dmask.dropLast)
    ∧ (∀ (n : Nat) (v1 d : List Int), 0 < n → v1.length = n →
      d.length = n → (∀ x ∈ v1, x ≠ 0) →
      (d.all (fun x => decide (x = (0 : Int))) = true →
        add_to_stack cfg (some [v1]) sz
            ⟨d, NpMask.arr (List.replicate n true)⟩ none true
          = StackResult.plain [v1])
      ∧ (d.all (fun x => decide (x = (0 : Int))) = false →
        add_to_stack cfg (some [v1]) sz
            ⟨d, NpMask.arr (List.replicate n true)⟩ none true
          = StackResult.masked [v1] [List.replicate n false])) := by
  constructor
  · intro S d m nodata new_stack dmask hns hdm hguard hne hbot
    exact add_to_stack_close_gaps_drop cfg S sz d m nodata new_stack dmask
      hns hdm hguard hne hbot
  · intro n v1 d hn hv hd hvalid
    constructor
    · intro h
      simp [add_to_stack, h]
    · intro h
      have hmt1 : npWhere (List.replicate n true) v1 d = v1 := by
        rw [← hv]
        exact npWhere_replicate_true v1 d (by omega)
      have hmt2 : npWhere (List.replicate n true) (List.replicate n (0 : Int))
          v1 = List.replicate n (0 : Int) := by
        have h0 : (List.replicate n (0 : Int)).length = n := by simp
        conv in List.replicate n true => rw [← h0]
        exact npWhere_replicate_true _ v1 (by simp [hv])
      have hm1 : v1.map (fun x => decide (x = (0 : Int)))
          = List.replicate n false := by
        rw [map_decide_eq_replicate_false 0 v1 hvalid, hv]
      have hm2 : (List.replicate n (0 : Int)).map
          (fun x => decide (x = (0 : Int))) = List.replicate n true := by
        simp
      obtain ⟨k, rfl⟩ : ∃ k, n = k + 1 := ⟨n - 1, by omega⟩
      have hc1 : ([List.replicate (k + 1) false,
          List.replicate (k + 1) true].all
            (fun l => l.all (fun b => b == false))) = false := by
        simp [List.replicate_succ]
      have hc2 : (([List.replicate (k + 1) false,
          List.replicate (k + 1) true].getLastD []).all
            (fun b => b == true)) = true := by
        simp [all_replicate_beq_true]
      simp only [add_to_stack, Option.getD_none, h, Bool.false_eq_true,
        if_false, maskIsScalarFalse, broadcastMask, hd,
        List.singleton_append, List.zip_cons_cons, List.zip_nil_right,
        List.map_cons, List.map_nil, hmt1, hmt2, hm1, hm2, hc1, hc2,
        if_true, List.dropLast]

/-- Witness for C4's amended theorem: the general clause at a two-layer
merge with a partially masked slice whose candidate bottom layer is
entirely nodata, and the particular case at both flavours of a fully
invalid slice. -/
theorem close_gaps_trims_bottom_layer_witness :
    add_to_stack cfgA (some [[1, 0]]) 2 ⟨[2, 3], NpMask.arr [true, false]⟩
        none true = StackResult.masked [[1, 3]] [[false, false]]
      ∧ add_to_stack cfgA (some [[3]]) 2
          ⟨[2], NpMask.arr (List.replicate 1 true)⟩ none true
          = StackResult.masked [[3]] [List.replicate 1 false]
      ∧ add_to_stack cfgA (some [[3]]) 2
          ⟨[0], NpMask.arr (List.replicate 1 true)⟩ none true
          = StackResult.plain [[3]] :=
  ⟨(close_gaps_trims_bottom_layer cfgA 2).1 [[1, 0]] [2, 3] [true, false]
      none _ _ rfl rfl (by decide) (by decide) (by decide),
    ((close_gaps_trims_bottom_layer cfgA 2).2 1 [3] [2] (by decide)
      (by decide) (by decide) (by decide)).2 (by decide),
    ((close_gaps_trims_bottom_layer cfgA 2).2 1 [3] [0] (by decide)
      (by decide) (by decide) (by decide)).1 (by decide)⟩

/-!
## Claim C9
-/

/-- Claim C9 (counterexample): a configuration with a non-positive band
count and a dimensionality of 1 — violating the data-model requirements the
claim attributes to the validator — is nevertheless accepted:
`is_valid_with_config` returns true instead of raising. -/
theorem config_validator_accepts_nonpositive :
    claimRequirements cfgBad = false
      ∧ is_valid_with_config cfgBad = Except.ok true :=
  ⟨by decide, rfl⟩

/-- Claim C9 (amended): the validator checks only the presence and Python
types of the four required keys — `bands` an int, `path` a str, `dtype` a
str, `ndim` an int — returning true exactly when those hold and raising a
bare `AssertionError` otherwise; positivity of `bands` and the lower bound
of 2 on `ndim` are never checked. -/
theorem config_validator_checks_types_only
    (config : List (String × CfgVal)) :
    is_valid_with_config config = Except.ok true
      ↔ typeChecks config = true := by
  rcases hb : config.lookup "bands" with _ | (nb | sb | _) <;>
    rcases hp : config.lookup "path" with _ | (n1 | s1 | _) <;>
      rcases hd : config.lookup "dtype" with _ | (n2 | s2 | _) <;>
        rcases hn : config.lookup "ndim" with _ | (n3 | s3 | _) <;>
          simp [is_valid_with_config, typeChecks, hb, hp, hd, hn]

end MapcheteNumpy


